import Mathlib

/-!
Verification of the M55M1 standard-driver routines `EADC_Calibration`,
`EADC_ConfigSampleModule`, `EADC_SetTriggerDelayTime`,
`EADC_SetExtendSampleTime` (Library/StdDriver/src/eadc.c) and
`USPI_Open` / `USPI_SetBusClock` (Library/StdDriver/src/usci_spi.c)
against their natural-language specification.

Machine integers are modelled as `Nat` with explicit `% 2 ^ 32` where
32-bit overflow can occur.  The hardware-owned status bits read inside
the polling loops are modelled by oracle sequences (`Nat → Bool`): the
value the loop condition would read at its i-th evaluation.  Register
field masks whose numeric values live in vendor headers that are not
part of the repository are taken as abstract parameters where the
claims do not depend on them, and as representative modelled constants
where a concrete evaluation is needed.
-/

/-- Bitwise complement of a 32-bit value, i.e. the C expression `~m`
on `uint32_t`: XOR with the all-ones 32-bit word. -/
def u32not (m : Nat) : Nat := m ^^^ (2 ^ 32 - 1)

/-- Number of decrements a `uint32_t` countdown performs before the
pre-decrement `--d` yields 0: `d` itself when `d ≠ 0`, and `2 ^ 32`
when `d = 0` (the first decrement wraps to `0xFFFFFFFF`). -/
def u32Budget (d : Nat) : Nat := if d = 0 then 2 ^ 32 else d

/-- The polling loop pattern of `EADC_Calibration` (eadc.c lines 90-97
and 104-111):

`while (busy) { if (--u32Delay == 0) { err = TIMEOUT; break; } }`

`busy i` is the value the loop condition reads at its i-th evaluation.
The function is applied at `fuel = u32Budget delay`, the number of
decrements left before the countdown reaches 0; the accumulator `k`
counts executed loop bodies.  Result: (timed out, loop bodies run). -/
def pollLoop (busy : Nat → Bool) : Nat → Nat → Bool × Nat
  | 0, k => (false, k)
  | fuel + 1, k =>
    if busy k then
      if fuel = 0 then (true, k + 1)
      else pollLoop busy fuel (k + 1)
    else (false, k)

theorem pollLoop_zero (busy : Nat → Bool) (k : Nat) :
    pollLoop busy 0 k = (false, k) := rfl

theorem pollLoop_succ (busy : Nat → Bool) (fuel k : Nat) :
    pollLoop busy (fuel + 1) k =
      if busy k then
        (if fuel = 0 then (true, k + 1) else pollLoop busy fuel (k + 1))
      else (false, k) := rfl

theorem pollLoop_timeout_iff (busy : Nat → Bool) :
    ∀ fuel k, (pollLoop busy fuel k).1 = true ↔
      (0 < fuel ∧ ∀ i, i < fuel → busy (k + i) = true) := by
  intro fuel
  induction fuel with
  | zero => intro k; simp [pollLoop_zero]
  | succ n ih =>
    intro k
    rw [pollLoop_succ]
    by_cases hb : busy k
    · rw [if_pos hb]
      by_cases hn : n = 0
      · subst hn
        rw [if_pos rfl]
        constructor
        · intro _
          refine ⟨Nat.zero_lt_one, ?_⟩
          intro i hi
          interval_cases i
          exact hb
        · intro _; rfl
      · rw [if_neg hn, ih (k + 1)]
        constructor
        · rintro ⟨hpos, hall⟩
          refine ⟨Nat.succ_pos n, ?_⟩
          intro i hi
          rcases Nat.eq_zero_or_pos i with h0 | hip
          · subst h0; simpa using hb
          · have hi1 : i - 1 < n := by omega
            have := hall (i - 1) hi1
            have hki : k + 1 + (i - 1) = k + i := by omega
            rwa [hki] at this
        · rintro ⟨_, hall⟩
          refine ⟨Nat.pos_of_ne_zero hn, ?_⟩
          intro i hi
          have := hall (i + 1) (by omega)
          have hki : k + (i + 1) = k + 1 + i := by omega
          rwa [hki] at this
    · rw [if_neg hb]
      constructor
      · intro h; exact absurd h (by simp)
      · rintro ⟨hpos, hall⟩
        have := hall 0 hpos
        simp [hb] at this

theorem pollLoop_count_le (busy : Nat → Bool) :
    ∀ fuel k, (pollLoop busy fuel k).2 ≤ k + fuel := by
  intro fuel
  induction fuel with
  | zero => intro k; simp [pollLoop_zero]
  | succ n ih =>
    intro k
    rw [pollLoop_succ]
    by_cases hb : busy k
    · rw [if_pos hb]
      by_cases hn : n = 0
      · subst hn; simp
      · rw [if_neg hn]
        have := ih (k + 1)
        omega
    · rw [if_neg hb]
      simp

theorem pollLoop_allTrue (busy : Nat → Bool) (hbusy : ∀ i, busy i = true) :
    ∀ fuel k, pollLoop busy (fuel + 1) k = (true, k + fuel + 1) := by
  intro fuel
  induction fuel with
  | zero => intro k; rw [pollLoop_succ, if_pos (hbusy k), if_pos rfl]
  | succ n ih =>
    intro k
    rw [pollLoop_succ, if_pos (hbusy k), if_neg (Nat.succ_ne_zero n), ih (k + 1)]
    congr 1
    omega

/-- Register field masks used by `EADC_Calibration`.  Their numeric
values are defined in vendor headers (`eadc_reg.h`, `clk_reg.h`) that
are not part of the repository, so the model is parameterised over
them; `EADC_CALSR_CALIF_Msk` is documented in eadc.c as bit 16 of
`EADC_CALSR`. -/
structure EadcMasks where
  califMsk : Nat
  eadc0selMsk : Nat
  eadc0selPclk0 : Nat
  eadc0divMsk : Nat

/-- The register state read and written by `EADC_Calibration` that is
not hardware-volatile: the clock registers `CLK->EADCSEL` and
`CLK->EADCDIV`, the entry value of `EADC->CALSR` (for the CALIF test
on line 85), and the global `g_EADC_i32ErrCode`. -/
structure EadcState where
  eadcsel : Nat
  eadcdiv : Nat
  calsr : Nat
  errCode : Int

/-- Hardware behaviour during the two polling loops: `rstBusy i` is
the value of `(eadc->CTL & EADC_CTL_ADCRST_Msk) == EADC_CTL_ADCRST_Msk`
at the i-th evaluation of the first loop condition (line 90), and
`calBusy i` the value of
`(eadc->CALSR & EADC_CALSR_CALIF_Msk) != EADC_CALSR_CALIF_Msk`
at the i-th evaluation of the second loop condition (line 104). -/
structure EadcHw where
  rstBusy : Nat → Bool
  calBusy : Nat → Bool

/-- Commands `EADC_Calibration` issues to the converter:
`convReset` is the `EADC_CONV_RESET(eadc)` macro call (line 88) and
`calStart` the calibration-start write
`eadc->CALCTL |= EADC_CALCTL_CAL_Msk` (line 100). -/
inductive EadcEvent where
  | convReset
  | calStart
deriving DecidableEq

/-- Modelled from the spec: the timeout error code `EADC_TIMEOUT_ERR`
is defined in the missing header `eadc.h`; the spec only requires it
to be a distinguished (nonzero) timeout value. -/
def EADC_TIMEOUT_ERR : Int := -1

/-- Observable outcome of one `EADC_Calibration` call: final values of
the clock registers and the global error code, the command trace, the
values programmed into `CLK->EADCSEL` / `CLK->EADCDIV` during
calibration (lines 78-79), whether each polling loop timed out, and
how many loop bodies each polling loop executed. -/
structure CalResult where
  eadcsel : Nat
  eadcdiv : Nat
  errCode : Int
  events : List EadcEvent
  selDuring : Nat
  divDuring : Nat
  timeout1 : Bool
  timeout2 : Bool
  iters1 : Nat
  iters2 : Nat
deriving DecidableEq

/-- `EADC_Calibration` (eadc.c lines 66-117).  `scc` is the value of
the global `SystemCoreClock` (reduced to its `uint32_t` value).  The
write `eadc->CTL |= EADC_CTL_ADCEN_Msk` (line 82), the flag clear
`eadc->CALSR |= EADC_CALSR_CALIF_Msk` (line 99) and the calibration
start (line 100) touch hardware-volatile registers whose later reads
are given by the `EadcHw` oracle; the two command macros appear in the
event trace.  Nothing in the body reads `s.errCode`: line 71
overwrites the global with 0 before anything else. -/
def EADC_Calibration (mk : EadcMasks) (scc : Nat) (s : EadcState)
    (hw : EadcHw) : CalResult :=
  let scc32 := scc % 2 ^ 32
  -- line 68: uint32_t u32Delay = SystemCoreClock;
  let u32Delay := scc32
  -- line 71: g_EADC_i32ErrCode = 0;
  let err0 : Int := 0
  -- lines 74-75: record EADC clock settings
  let u32EADCClkSel := s.eadcsel
  let u32EADCClkDiv := s.eadcdiv
  -- line 78: CLK->EADCSEL = (CLK->EADCSEL & CLK_EADCSEL_EADC0SEL_Msk)
  --                          | CLK_EADCSEL_EADC0SEL_PCLK0;
  let sel1 := (s.eadcsel &&& mk.eadc0selMsk) ||| mk.eadc0selPclk0
  -- line 79: CLK->EADCDIV &= CLK_EADCDIV_EADC0DIV_Msk;
  let div1 := s.eadcdiv &&& mk.eadc0divMsk
  -- line 85: if ((eadc->CALSR & EADC_CALSR_CALIF_Msk) == 0)
  if s.calsr &&& mk.califMsk = 0 then
    -- line 88: EADC_CONV_RESET(eadc); lines 90-97: first polling loop
    let r1 := pollLoop hw.rstBusy (u32Budget u32Delay) 0
    let err1 := if r1.1 then EADC_TIMEOUT_ERR else err0
    -- line 102: u32Delay = SystemCoreClock / 20;
    let d2 := scc32 / 20
    -- lines 104-111: second polling loop
    let r2 := pollLoop hw.calBusy (u32Budget d2) 0
    let err2 := if r2.1 then EADC_TIMEOUT_ERR else err1
    -- lines 115-116: restore EADC clock settings
    { eadcsel := u32EADCClkSel, eadcdiv := u32EADCClkDiv,
      errCode := err2,
      events := [EadcEvent.convReset, EadcEvent.calStart],
      selDuring := sel1, divDuring := div1,
      timeout1 := r1.1, timeout2 := r2.1,
      iters1 := r1.2, iters2 := r2.2 }
  else
    -- lines 115-116: restore EADC clock settings
    { eadcsel := u32EADCClkSel, eadcdiv := u32EADCClkDiv,
      errCode := err0,
      events := [],
      selDuring := sel1, divDuring := div1,
      timeout1 := false, timeout2 := false,
      iters1 := 0, iters2 := 0 }

theorem u32Budget_pos (d : Nat) : 0 < u32Budget d := by
  unfold u32Budget
  split
  · norm_num
  · omega

theorem pollLoop_timeout_iff0 (busy : Nat → Bool) (d : Nat) :
    (pollLoop busy (u32Budget d) 0).1 = true ↔
      ∀ i, i < u32Budget d → busy i = true := by
  rw [pollLoop_timeout_iff]
  constructor
  · rintro ⟨_, h⟩ i hi
    simpa using h i hi
  · intro h
    exact ⟨u32Budget_pos d, fun i hi => by simpa using h i hi⟩

/-- Modelled from the spec: a representative instance of the hardware
field layout, for concrete evaluations.  CALIF is `EADC_CALSR[16]`
(documented in the eadc.c doc comments); a two-bit clock-source field
with PCLK0 encoded as 2 and an eight-bit divider field stand in for
the vendor-header values left abstract by the spec. -/
def eadcMasksI : EadcMasks :=
  { califMsk := 2 ^ 16, eadc0selMsk := 3, eadc0selPclk0 := 2,
    eadc0divMsk := 255 }

/-- Hardware that never clears the reset bit and never raises the
calibration-finished flag. -/
def eadcHwBusy : EadcHw := ⟨fun _ => true, fun _ => true⟩

/-- Hardware that clears the reset bit and finishes calibration at the
first poll. -/
def eadcHwReady : EadcHw := ⟨fun _ => false, fun _ => false⟩

/-- C1: when the CALIF calibration-finished flag is already set at
entry, `EADC_Calibration` issues no reset command and no
calibration-start command, and on return `CLK->EADCSEL` and
`CLK->EADCDIV` hold the values they had on entry. -/
theorem EADC_Calibration_calif_set_noop (mk : EadcMasks) (scc : Nat)
    (s : EadcState) (hw : EadcHw) (h : s.calsr &&& mk.califMsk ≠ 0) :
    (EADC_Calibration mk scc s hw).events = [] ∧
    (EADC_Calibration mk scc s hw).eadcsel = s.eadcsel ∧
    (EADC_Calibration mk scc s hw).eadcdiv = s.eadcdiv := by
  simp [EADC_Calibration, h]

theorem EADC_Calibration_calif_set_noop_witness :
    ((⟨7, 9, 2 ^ 16, 0⟩ : EadcState).calsr &&& eadcMasksI.califMsk ≠ 0) ∧
    (EADC_Calibration eadcMasksI 5 ⟨7, 9, 2 ^ 16, 0⟩ eadcHwBusy).events = [] ∧
    (EADC_Calibration eadcMasksI 5 ⟨7, 9, 2 ^ 16, 0⟩ eadcHwBusy).eadcsel = 7 ∧
    (EADC_Calibration eadcMasksI 5 ⟨7, 9, 2 ^ 16, 0⟩ eadcHwBusy).eadcdiv = 9 :=
  ⟨by decide,
   EADC_Calibration_calif_set_noop eadcMasksI 5 ⟨7, 9, 2 ^ 16, 0⟩ eadcHwBusy
     (by decide)⟩

/-- C2: for every initial register state and every hardware behaviour
during the polling loops, `EADC_Calibration` returns with
`CLK->EADCSEL` and `CLK->EADCDIV` restored to the values snapshotted
at entry. -/
theorem EADC_Calibration_restores_clock (mk : EadcMasks) (scc : Nat)
    (s : EadcState) (hw : EadcHw) :
    (EADC_Calibration mk scc s hw).eadcsel = s.eadcsel ∧
    (EADC_Calibration mk scc s hw).eadcdiv = s.eadcdiv := by
  by_cases hc : s.calsr &&& mk.califMsk = 0 <;>
    simp [EADC_Calibration, hc]

/-- C3: after any call, `g_EADC_i32ErrCode` equals the timeout value
iff at least one polling loop exhausted its countdown budget (which
requires the CALIF flag to be clear at entry); when neither loop timed
out the error code is 0; a timeout does not abort: the reset and
calibration-start commands are both issued whenever the flag was
clear, and the clock registers are restored in every case. -/
theorem EADC_Calibration_timeout_characterisation (mk : EadcMasks)
    (scc : Nat) (s : EadcState) (hw : EadcHw) :
    ((EADC_Calibration mk scc s hw).errCode = EADC_TIMEOUT_ERR ↔
      (s.calsr &&& mk.califMsk = 0 ∧
        ((∀ i, i < u32Budget (scc % 2 ^ 32) → hw.rstBusy i = true) ∨
         (∀ i, i < u32Budget (scc % 2 ^ 32 / 20) → hw.calBusy i = true)))) ∧
    ((EADC_Calibration mk scc s hw).timeout1 = false ∧
        (EADC_Calibration mk scc s hw).timeout2 = false →
      (EADC_Calibration mk scc s hw).errCode = 0) ∧
    (s.calsr &&& mk.califMsk = 0 →
      (EADC_Calibration mk scc s hw).events =
        [EadcEvent.convReset, EadcEvent.calStart]) ∧
    (EADC_Calibration mk scc s hw).eadcsel = s.eadcsel ∧
    (EADC_Calibration mk scc s hw).eadcdiv = s.eadcdiv := by
  by_cases hc : s.calsr &&& mk.califMsk = 0
  · have h1 := pollLoop_timeout_iff0 hw.rstBusy (scc % 2 ^ 32)
    have h2 := pollLoop_timeout_iff0 hw.calBusy (scc % 2 ^ 32 / 20)
    simp only [EADC_Calibration, if_pos hc]
    refine ⟨?_, ?_, fun _ => ?_, ?_, ?_⟩
    · rw [← h1, ← h2]
      cases hb1 : (pollLoop hw.rstBusy (u32Budget (scc % 2 ^ 32)) 0).1 <;>
        cases hb2 : (pollLoop hw.calBusy (u32Budget (scc % 2 ^ 32 / 20)) 0).1 <;>
          simp [hb1, hb2, hc, EADC_TIMEOUT_ERR]
    · intro hf
      simp only [hf.1, hf.2]
      rfl
    · trivial
    · trivial
    · trivial
  · simp [EADC_Calibration, hc, EADC_TIMEOUT_ERR]

theorem EADC_Calibration_timeout_characterisation_witness :
    (EADC_Calibration eadcMasksI 5 ⟨7, 9, 0, 0⟩ eadcHwBusy).errCode =
      EADC_TIMEOUT_ERR :=
  ((EADC_Calibration_timeout_characterisation eadcMasksI 5
      ⟨7, 9, 0, 0⟩ eadcHwBusy).1).mpr
    ⟨by decide, Or.inl (fun i _ => rfl)⟩

/-- C4: at the concrete failing input (source field = 1, divider = 5,
with the representative field layout `eadcMasksI`), the value the code
programs into `CLK->EADCSEL` during calibration keeps the old
source-field bit (result field 3, not the PCLK0 encoding 2), and the
value programmed into `CLK->EADCDIV` keeps the old divider 5 instead
of clearing it: `reg & Msk` preserves the field that the code's own
comment says is being replaced. -/
theorem EADC_Calibration_clock_program_divergence :
    (EADC_Calibration eadcMasksI 5 ⟨1, 5, 0, 0⟩ eadcHwReady).selDuring = 3 ∧
    3 &&& eadcMasksI.eadc0selMsk ≠ eadcMasksI.eadc0selPclk0 ∧
    (EADC_Calibration eadcMasksI 5 ⟨1, 5, 0, 0⟩ eadcHwReady).divDuring = 5 ∧
    (5 : Nat) ≠ 0 := by
  decide

/-- C6 (amended): `EADC_Calibration` overwrites `g_EADC_i32ErrCode` at
entry, so its result never depends on the previously stored error
code, and on return the code is either 0 or the timeout value: a
timeout recorded by an earlier call is erased by a later successful
call. -/
theorem EADC_Calibration_err_overwritten (mk : EadcMasks) (scc : Nat)
    (s : EadcState) (hw : EadcHw) (e : Int) :
    EADC_Calibration mk scc { s with errCode := e } hw =
      EADC_Calibration mk scc { s with errCode := 0 } hw ∧
    ((EADC_Calibration mk scc s hw).errCode = 0 ∨
      (EADC_Calibration mk scc s hw).errCode = EADC_TIMEOUT_ERR) := by
  refine ⟨rfl, ?_⟩
  by_cases hc : s.calsr &&& mk.califMsk = 0 <;>
    simp only [EADC_Calibration, if_pos, if_neg, hc, ite_true, ite_false] <;>
    first
      | exact Or.inl trivial
      | split_ifs <;> simp

/-- C6 counterexample: with the timeout value stored from an earlier
call, a call that finds the CALIF flag set (a successful call) leaves
the error code at 0 — the driver has reset it, so the earlier timeout
is no longer observable. -/
theorem EADC_Calibration_err_reset_cex :
    EADC_TIMEOUT_ERR ≠ 0 ∧
    (EADC_Calibration eadcMasksI 5 ⟨7, 9, 2 ^ 16, EADC_TIMEOUT_ERR⟩
        eadcHwReady).errCode = 0 := by
  decide

/-- C7 (amended): both polling loops are bounded: the reset-clear poll
executes at most `u32Budget (SystemCoreClock % 2^32)` bodies and the
calibration-finished poll at most
`u32Budget (SystemCoreClock % 2^32 / 20)` bodies — that is,
`SystemCoreClock` and `SystemCoreClock / 20` respectively when those
are nonzero, and `2^32` when the countdown starts at 0 and the
pre-decrement wraps. -/
theorem EADC_Calibration_poll_bounds (mk : EadcMasks) (scc : Nat)
    (s : EadcState) (hw : EadcHw) :
    (EADC_Calibration mk scc s hw).iters1 ≤ u32Budget (scc % 2 ^ 32) ∧
    (EADC_Calibration mk scc s hw).iters2 ≤
      u32Budget (scc % 2 ^ 32 / 20) := by
  by_cases hc : s.calsr &&& mk.califMsk = 0
  · simp only [EADC_Calibration, if_pos hc]
    constructor
    · simpa using pollLoop_count_le hw.rstBusy (u32Budget (scc % 2 ^ 32)) 0
    · simpa using
        pollLoop_count_le hw.calBusy (u32Budget (scc % 2 ^ 32 / 20)) 0
  · simp [EADC_Calibration, hc]

/-- When the CALIF flag is clear at entry, the first poll count of
`EADC_Calibration` is the body count of `pollLoop` at the budget
derived from `SystemCoreClock`. -/
theorem EADC_Calibration_iters1_eq (mk : EadcMasks) (scc : Nat)
    (s : EadcState) (hw : EadcHw) (hc : s.calsr &&& mk.califMsk = 0) :
    (EADC_Calibration mk scc s hw).iters1 =
      (pollLoop hw.rstBusy (u32Budget (scc % 2 ^ 32)) 0).2 := by
  simp only [EADC_Calibration, if_pos hc]

/-- C7 counterexample: with `SystemCoreClock = 0` and hardware that
never clears the reset bit, the first polling loop executes `2^32`
bodies — not at most `SystemCoreClock = 0` as the claim states for
every value of `SystemCoreClock`. -/
theorem EADC_Calibration_zero_scc_cex :
    (EADC_Calibration eadcMasksI 0 ⟨7, 9, 0, 0⟩ eadcHwBusy).iters1 = 2 ^ 32 ∧
    ¬ ((EADC_Calibration eadcMasksI 0 ⟨7, 9, 0, 0⟩ eadcHwBusy).iters1 ≤ 0) := by
  have hc : (⟨7, 9, 0, 0⟩ : EadcState).calsr &&& eadcMasksI.califMsk = 0 := by
    decide
  have h1 := EADC_Calibration_iters1_eq eadcMasksI 0 ⟨7, 9, 0, 0⟩ eadcHwBusy hc
  have hb : u32Budget (0 % 2 ^ 32) = 2 ^ 32 - 1 + 1 := by
    norm_num [u32Budget]
  have hp := pollLoop_allTrue eadcHwBusy.rstBusy (fun i => rfl) (2 ^ 32 - 1) 0
  have h : (EADC_Calibration eadcMasksI 0 ⟨7, 9, 0, 0⟩ eadcHwBusy).iters1 =
      2 ^ 32 := by
    rw [h1, hb, hp]
    norm_num
  refine ⟨h, ?_⟩
  rw [h]
  norm_num

/-- Sample-control register file of the EADC.  `SCTL` holds 19 words
(sample modules 0..18, selected by `u32ModuleNum < 19` in eadc.c) and
`SCTL19` 9 words (sample modules 19..27: the driver doc comments state
valid module numbers are 0 to 27).  Both index maps are total so that
a write past the end of `SCTL19` — out of bounds in the C array — is
representable as a write at an index that is not in bounds. -/
structure SampleRegs where
  sctl : Nat → Nat
  sctl19 : Nat → Nat

/-- The array cell a sample-module function writes. -/
inductive SctlLoc where
  | sctl (i : Nat)
  | sctl19 (i : Nat)
deriving DecidableEq

/-- Whether a written cell lies inside the valid register arrays:
19 words of `SCTL`, 9 words of `SCTL19` (modelled from the spec, which
fixes the documented module range 0..27). -/
def SctlLoc.inBounds : SctlLoc → Bool
  | SctlLoc.sctl i => i < 19
  | SctlLoc.sctl19 i => i < 9

/-- Pointwise map update, the effect of one array-cell assignment. -/
def updAt (f : Nat → Nat) (i v : Nat) : Nat → Nat :=
  fun j => if j = i then v else f j

/-- `EADC_ConfigSampleModule` (eadc.c lines 169-181).  `clrMsk` is the
cleared mask `EADC_SCTL_EXTFEN_Msk | EADC_SCTL_EXTREN_Msk |
EADC_SCTL_TRGSEL_Msk | EADC_SCTL_CHSEL_Msk`, whose value lives in the
missing vendor header.  The two read-modify-write statements on the
same cell are combined into the cell's final value.  Returns the new
register file and the cell written. -/
def EADC_ConfigSampleModule (clrMsk : Nat) (s : SampleRegs)
    (u32ModuleNum u32TriggerSrc u32Channel : Nat) : SampleRegs × SctlLoc :=
  if u32ModuleNum < 19 then
    let v := (s.sctl u32ModuleNum &&& u32not clrMsk) |||
      (u32TriggerSrc ||| u32Channel)
    ({ s with sctl := updAt s.sctl u32ModuleNum v },
     SctlLoc.sctl u32ModuleNum)
  else
    let v := (s.sctl19 (u32ModuleNum - 19) &&& u32not clrMsk) |||
      (u32TriggerSrc ||| u32Channel)
    ({ s with sctl19 := updAt s.sctl19 (u32ModuleNum - 19) v },
     SctlLoc.sctl19 (u32ModuleNum - 19))

/-- `EADC_SetTriggerDelayTime` (eadc.c lines 198-210).  `clrMsk` is
`EADC_SCTL_TRGDLDIV_Msk | EADC_SCTL_TRGDLCNT_Msk` and `cntPos` is
`EADC_SCTL_TRGDLCNT_Pos` (values in the missing vendor header). -/
def EADC_SetTriggerDelayTime (clrMsk cntPos : Nat) (s : SampleRegs)
    (u32ModuleNum u32TriggerDelayTime u32DelayClockDivider : Nat) :
    SampleRegs × SctlLoc :=
  if u32ModuleNum < 19 then
    let v := (s.sctl u32ModuleNum &&& u32not clrMsk) |||
      (((u32TriggerDelayTime <<< cntPos) % 2 ^ 32) ||| u32DelayClockDivider)
    ({ s with sctl := updAt s.sctl u32ModuleNum v },
     SctlLoc.sctl u32ModuleNum)
  else
    let v := (s.sctl19 (u32ModuleNum - 19) &&& u32not clrMsk) |||
      (((u32TriggerDelayTime <<< cntPos) % 2 ^ 32) ||| u32DelayClockDivider)
    ({ s with sctl19 := updAt s.sctl19 (u32ModuleNum - 19) v },
     SctlLoc.sctl19 (u32ModuleNum - 19))

/-- `EADC_SetExtendSampleTime` (eadc.c lines 221-233).  `extMsk` is
`EADC_SCTL_EXTSMPT_Msk` and `extPos` is `EADC_SCTL_EXTSMPT_Pos`
(values in the missing vendor header). -/
def EADC_SetExtendSampleTime (extMsk extPos : Nat) (s : SampleRegs)
    (u32ModuleNum u32ExtendSampleTime : Nat) : SampleRegs × SctlLoc :=
  if u32ModuleNum < 19 then
    let v := (s.sctl u32ModuleNum &&& u32not extMsk) |||
      ((u32ExtendSampleTime <<< extPos) % 2 ^ 32)
    ({ s with sctl := updAt s.sctl u32ModuleNum v },
     SctlLoc.sctl u32ModuleNum)
  else
    let v := (s.sctl19 (u32ModuleNum - 19) &&& u32not extMsk) |||
      ((u32ExtendSampleTime <<< extPos) % 2 ^ 32)
    ({ s with sctl19 := updAt s.sctl19 (u32ModuleNum - 19) v },
     SctlLoc.sctl19 (u32ModuleNum - 19))

/-- An all-zero sample-control register file, for concrete runs. -/
def sampleRegs0 : SampleRegs := ⟨fun _ => 0, fun _ => 0⟩

/-- C5 counterexample: at module number 28 (just outside the
documented range 0..27) `EADC_ConfigSampleModule` is not a no-op and
is not ignored by any guard: it writes cell 9 of the 9-word `SCTL19`
array — an out-of-bounds cell — changing its value from 0 to 1. -/
theorem EADC_ConfigSampleModule_oob_cex :
    (EADC_ConfigSampleModule 0 sampleRegs0 28 1 0).1.sctl19 9 = 1 ∧
    sampleRegs0.sctl19 9 = 0 ∧
    SctlLoc.inBounds (EADC_ConfigSampleModule 0 sampleRegs0 28 1 0).2 =
      false := by
  decide

/-- C5 (amended): for every module number at least 28, each of
`EADC_ConfigSampleModule`, `EADC_SetTriggerDelayTime` and
`EADC_SetExtendSampleTime` is not ignored: the single `< 19` guard
sends it to the `SCTL19` branch, which writes cell
`u32ModuleNum - 19`, an index outside the valid 9-word array; the
valid cells (`SCTL` 0..18 and `SCTL19` 0..8) keep their values and no
error is reported (the functions return no error indication). -/
theorem EADC_sample_module_out_of_range (clrMsk cntPos extMsk extPos : Nat)
    (s : SampleRegs) (m trig ch dly dcd t : Nat) (h : 28 ≤ m) :
    ((EADC_ConfigSampleModule clrMsk s m trig ch).2 =
        SctlLoc.sctl19 (m - 19) ∧
      SctlLoc.inBounds (EADC_ConfigSampleModule clrMsk s m trig ch).2 =
        false ∧
      (∀ i, (EADC_ConfigSampleModule clrMsk s m trig ch).1.sctl i =
        s.sctl i) ∧
      (∀ i, i < 9 →
        (EADC_ConfigSampleModule clrMsk s m trig ch).1.sctl19 i =
          s.sctl19 i)) ∧
    ((EADC_SetTriggerDelayTime clrMsk cntPos s m dly dcd).2 =
        SctlLoc.sctl19 (m - 19) ∧
      SctlLoc.inBounds (EADC_SetTriggerDelayTime clrMsk cntPos s m dly dcd).2 =
        false ∧
      (∀ i, (EADC_SetTriggerDelayTime clrMsk cntPos s m dly dcd).1.sctl i =
        s.sctl i) ∧
      (∀ i, i < 9 →
        (EADC_SetTriggerDelayTime clrMsk cntPos s m dly dcd).1.sctl19 i =
          s.sctl19 i)) ∧
    ((EADC_SetExtendSampleTime extMsk extPos s m t).2 =
        SctlLoc.sctl19 (m - 19) ∧
      SctlLoc.inBounds (EADC_SetExtendSampleTime extMsk extPos s m t).2 =
        false ∧
      (∀ i, (EADC_SetExtendSampleTime extMsk extPos s m t).1.sctl i =
        s.sctl i) ∧
      (∀ i, i < 9 →
        (EADC_SetExtendSampleTime extMsk extPos s m t).1.sctl19 i =
          s.sctl19 i)) := by
  have hm : ¬ (m < 19) := by omega
  have hb : (decide (m - 19 < 9)) = false := by
    simp only [decide_eq_false_iff_not]
    omega
  refine ⟨⟨?_, ?_, ?_, ?_⟩, ⟨?_, ?_, ?_, ?_⟩, ⟨?_, ?_, ?_, ?_⟩⟩ <;>
    simp only [EADC_ConfigSampleModule, EADC_SetTriggerDelayTime,
      EADC_SetExtendSampleTime, if_neg hm, SctlLoc.inBounds, updAt, hb]
  · intro i
    trivial
  · intro i hi
    rw [if_neg (by omega)]
  · intro i
    trivial
  · intro i hi
    rw [if_neg (by omega)]
  · intro i
    trivial
  · intro i hi
    rw [if_neg (by omega)]

theorem EADC_sample_module_out_of_range_witness :
    (28 ≤ 28) ∧
    (EADC_ConfigSampleModule 0 sampleRegs0 28 1 0).2 =
      SctlLoc.sctl19 9 ∧
    (EADC_SetExtendSampleTime 0 0 sampleRegs0 28 3).2 =
      SctlLoc.sctl19 9 ∧
    (EADC_SetTriggerDelayTime 0 0 sampleRegs0 28 1 0).1.sctl 5 =
      sampleRegs0.sctl 5 :=
  ⟨by decide,
   (EADC_sample_module_out_of_range 0 0 0 0 sampleRegs0 28 1 0 1 0 3
      (by decide)).1.1,
   (EADC_sample_module_out_of_range 0 0 0 0 sampleRegs0 28 1 0 1 0 3
      (by decide)).2.2.1,
   (EADC_sample_module_out_of_range 0 0 0 0 sampleRegs0 28 1 0 1 0 3
      (by decide)).2.1.2.2.1 5⟩

/-- USCI-SPI register state touched by `USPI_Open` and
`USPI_SetBusClock` (usci_spi.c). -/
structure UspiState where
  ctl : Nat
  linectl : Nat
  ctlin0 : Nat
  protctl : Nat
  brgen : Nat
deriving DecidableEq

/-- Modelled from the spec: the USCI register field constants live in
vendor headers that are not part of the repository; the spec states
the bit layout is fixed by the hardware.  The standard USCI layout is
used: FUNMODE in CTL[2:0], LSB at LINECTL[0], CTLOINV at LINECTL[7],
DWIDTH in LINECTL[11:8], ININV at CTLIN0[2], SLAVE at PROTCTL[0],
SCLKMODE in PROTCTL[7:6], AUTOSS at PROTCTL[3], PROTEN at PROTCTL[31],
CLKDIV in BRGEN[25:16]; `USPI_MASTER` is 0 and `USPI_SLAVE` the SLAVE
mask. -/
def USPI_CTL_FUNMODE_Pos : Nat := 0

def USPI_CTL_FUNMODE_Msk : Nat := (2 ^ 3 - 1) <<< USPI_CTL_FUNMODE_Pos

def USPI_LINECTL_LSB_Msk : Nat := 2 ^ 1 - 1

def USPI_LINECTL_CTLOINV_Msk : Nat := 2 ^ 7

def USPI_LINECTL_DWIDTH_Pos : Nat := 8

def USPI_LINECTL_DWIDTH_Msk : Nat := (2 ^ 4 - 1) <<< USPI_LINECTL_DWIDTH_Pos

def USPI_CTLIN0_ININV_Msk : Nat := 2 ^ 2

def USPI_PROTCTL_SLAVE_Msk : Nat := 2 ^ 0

def USPI_PROTCTL_SCLKMODE_Msk : Nat := (2 ^ 2 - 1) <<< 6

def USPI_PROTCTL_AUTOSS_Msk : Nat := 2 ^ 3

def USPI_PROTCTL_PROTEN_Msk : Nat := 2 ^ 31

def USPI_BRGEN_CLKDIV_Pos : Nat := 16

def USPI_BRGEN_CLKDIV_Msk : Nat := (2 ^ 10 - 1) <<< USPI_BRGEN_CLKDIV_Pos

def USPI_MASTER : Nat := 0

def USPI_SLAVE : Nat := USPI_PROTCTL_SLAVE_Msk

/-- The divider computation shared by `USPI_Open` (usci_spi.c line 57)
and `USPI_SetBusClock` (line 185):

`(uint32_t)((((((u32Pclk / 2ul) * 10ul) / (u32BusClock)) + 5ul) / 10ul) - 1ul)`

in 32-bit unsigned arithmetic: the product `(pclk / 2) * 10` and the
sum `+ 5` are reduced mod `2 ^ 32`, and the final `- 1ul` wraps when
the rounded quotient is 0. -/
def uspiClkDivFormula (pclk bus : Nat) : Nat :=
  (((pclk / 2) * 10 % 2 ^ 32 / bus + 5) % 2 ^ 32 / 10 + (2 ^ 32 - 1)) % 2 ^ 32

/-- The divider computation divides by the caller-supplied bus clock;
in C a zero divisor is undefined behaviour, modelled as `none`. -/
def uspiClkDivCompute (pclk bus : Nat) : Option Nat :=
  if bus = 0 then none else some (uspiClkDivFormula pclk bus)

/-- `USPI_Open` (usci_spi.c lines 44-103) for the `USPI0` instance.
`pclk` is the value `CLK_GetPCLK1Freq()` returns (modelled from the
spec: that clock getter is outside the repository; for any other
instance the C code reads an uninitialised `u32Pclk`).  Returns the
updated register state and the returned actual peripheral clock
frequency.  The divider computation runs only under the
`u32BusClock != 0` guard.  Nat division by 0 yields 0 where the C
final-frequency division would be undefined behaviour (reachable only
when the wrapped divider is `0xFFFFFFFF`). -/
def USPI_Open (s : UspiState) (u32MasterSlave u32SPIMode u32DataWidth
    u32BusClock pclk : Nat) : UspiState × Nat :=
  -- line 46: u32ClkDiv = 0; lines 55-58: guarded divider computation
  let u32ClkDiv := if u32BusClock ≠ 0 then uspiClkDivFormula pclk u32BusClock
    else 0
  -- lines 61-62: enable USCI_SPI protocol
  let ctl1 := (s.ctl &&& u32not USPI_CTL_FUNMODE_Msk) |||
    ((1 <<< USPI_CTL_FUNMODE_Pos) % 2 ^ 32)
  -- lines 65-68: data width of 16 and above is encoded as 0
  let dw := if 16 ≤ u32DataWidth then 0 else u32DataWidth
  -- lines 70-71: DWIDTH field
  let lc1 := (s.linectl &&& u32not USPI_LINECTL_DWIDTH_Msk) |||
    ((dw <<< USPI_LINECTL_DWIDTH_Pos) % 2 ^ 32)
  -- line 74: MSB data format
  let lc2 := lc1 &&& u32not USPI_LINECTL_LSB_Msk
  -- lines 77-84: slave-selection polarity
  let lc3 := if u32MasterSlave = USPI_MASTER then
    lc2 ||| USPI_LINECTL_CTLOINV_Msk else lc2
  let ci1 := if u32MasterSlave = USPI_MASTER then s.ctlin0
    else s.ctlin0 ||| USPI_CTLIN0_ININV_Msk
  -- lines 87-90: operating mode and transfer timing
  let pc1 := (s.protctl &&& u32not (USPI_PROTCTL_SCLKMODE_Msk |||
    USPI_PROTCTL_AUTOSS_Msk ||| USPI_PROTCTL_SLAVE_Msk)) |||
    (u32MasterSlave ||| u32SPIMode)
  -- lines 93-95: bus clock divider and protocol enable
  let bg1 := (s.brgen &&& u32not USPI_BRGEN_CLKDIV_Msk) |||
    ((u32ClkDiv <<< USPI_BRGEN_CLKDIV_Pos) % 2 ^ 32)
  let pc2 := pc1 ||| USPI_PROTCTL_PROTEN_Msk
  -- lines 97-100: actual frequency `u32Pclk / ((u32ClkDiv + 1) << 1)`
  let u32UspiClk := if u32BusClock ≠ 0 then
    pclk / ((u32ClkDiv + 1) % 2 ^ 32 * 2 % 2 ^ 32) else 0
  ({ ctl := ctl1, linectl := lc3, ctlin0 := ci1, protctl := pc2,
     brgen := bg1 }, u32UspiClk)

/-- `USPI_SetBusClock` (usci_spi.c lines 175-192) for the `USPI0`
instance; `pclk` models `CLK_GetPCLK1Freq()` as for `USPI_Open`.  The
divider computation divides by `u32BusClock` with no zero guard, so a
zero bus clock reaches the division by zero (`none`). -/
def USPI_SetBusClock (s : UspiState) (u32BusClock pclk : Nat) :
    Option (UspiState × Nat) :=
  match uspiClkDivCompute pclk u32BusClock with
  | none => none
  | some u32ClkDiv =>
    -- lines 188-189: set the divider field of BRGEN
    let bg1 := (s.brgen &&& u32not USPI_BRGEN_CLKDIV_Msk) |||
      ((u32ClkDiv <<< USPI_BRGEN_CLKDIV_Pos) % 2 ^ 32)
    -- line 191: return `u32Pclk / ((u32ClkDiv + 1ul) << 1)`
    some ({ s with brgen := bg1 },
      pclk / ((u32ClkDiv + 1) % 2 ^ 32 * 2 % 2 ^ 32))

/-- The divider the specification describes: the nearest-integer
(half-up) rounding of `(pclk / 2) / bus`. -/
def divNearest (pclk bus : Nat) : Nat := ((pclk / 2) * 2 + bus) / (2 * bus)

/-- The `* 10, + 5, / 10` scheme computes the half-up rounding of
`x / bus` (pure arithmetic, no 32-bit reduction). -/
theorem div_round_scheme (x bus : Nat) (hb : bus ≠ 0) :
    (x * 10 / bus + 5) / 10 = (x * 2 + bus) / (2 * bus) := by
  have hbpos : 0 < bus := Nat.pos_of_ne_zero hb
  have hx := Nat.div_add_mod x bus
  set q := x / bus with hq
  set r := x % bus with hr
  have hrlt : r < bus := Nat.mod_lt x hbpos
  have h10 : x * 10 = bus * (10 * q) + 10 * r := by
    rw [← hx]; ring
  have hA : x * 10 / bus = 10 * q + 10 * r / bus := by
    rw [h10, Nat.mul_add_div hbpos]
  have ht9 : 10 * r / bus ≤ 9 := by
    have h1 : 10 * r / bus < 10 := Nat.div_lt_of_lt_mul (by omega)
    omega
  have hLHS : (x * 10 / bus + 5) / 10 = q + (10 * r / bus + 5) / 10 := by
    rw [hA, Nat.add_assoc, Nat.mul_add_div (by norm_num)]
  have h2 : x * 2 + bus = 2 * bus * q + (2 * r + bus) := by
    rw [← hx]; ring
  have hRHS : (x * 2 + bus) / (2 * bus) = q + (2 * r + bus) / (2 * bus) := by
    rw [h2, Nat.mul_add_div (by omega)]
  have hiff : (5 ≤ 10 * r / bus) ↔ (bus ≤ 2 * r) := by
    rw [Nat.le_div_iff_mul_le hbpos]
    omega
  have hdigit : ∀ t : Nat, t ≤ 9 → (t + 5) / 10 = (if 5 ≤ t then 1 else 0) := by
    intro t ht
    interval_cases t <;> rfl
  have hsmall : (10 * r / bus + 5) / 10 = if bus ≤ 2 * r then 1 else 0 := by
    rw [hdigit (10 * r / bus) ht9]
    by_cases hc : bus ≤ 2 * r
    · rw [if_pos (hiff.mpr hc), if_pos hc]
    · rw [if_neg (fun h => hc (hiff.mp h)), if_neg hc]
  have hsmall2 : (2 * r + bus) / (2 * bus) = if bus ≤ 2 * r then 1 else 0 := by
    by_cases hc : bus ≤ 2 * r
    · rw [if_pos hc]
      exact Nat.div_eq_of_lt_le (by omega) (by omega)
    · rw [if_neg hc]
      exact Nat.div_eq_of_lt (by omega)
  rw [hLHS, hRHS, hsmall, hsmall2]

/-- For a nonzero requested bus clock, the frequency `USPI_Open`
returns is the one computed from the shared divider formula. -/
theorem USPI_Open_snd (s : UspiState) (ms sm w bus pclk : Nat)
    (hb : bus ≠ 0) :
    (USPI_Open s ms sm w bus pclk).2 =
      pclk / ((uspiClkDivFormula pclk bus + 1) % 2 ^ 32 * 2 % 2 ^ 32) := by
  simp only [USPI_Open]
  rw [if_pos hb, if_pos hb]

/-- C8 (amended): for a nonzero requested bus clock, whenever
`(pclk / 2) * 10 + 5` fits in 32 bits and the half-up rounding of
`(pclk / 2) / bus` is at least 1, the computed divider is that
rounding minus one, and both `USPI_Open` and `USPI_SetBusClock`
return `pclk / (2 * (divider + 1)) = pclk / (2 * divNearest)`;
`USPI_Open` returns 0 when the requested bus clock is 0. -/
theorem USPI_busclock_rounding (s : UspiState) (ms sm w bus pclk : Nat)
    (hb : bus ≠ 0) (hfit : (pclk / 2) * 10 + 5 < 2 ^ 32)
    (hge : 1 ≤ divNearest pclk bus) :
    uspiClkDivFormula pclk bus = divNearest pclk bus - 1 ∧
    (USPI_Open s ms sm w bus pclk).2 = pclk / (2 * divNearest pclk bus) ∧
    Option.map Prod.snd (USPI_SetBusClock s bus pclk) =
      some (pclk / (2 * divNearest pclk bus)) ∧
    (USPI_Open s ms sm w 0 pclk).2 = 0 := by
  have p32 : (2 : Nat) ^ 32 = 4294967296 := by norm_num
  have p31 : (2 : Nat) ^ 31 = 2147483648 := by norm_num
  have hA : (pclk / 2) * 10 % 2 ^ 32 = (pclk / 2) * 10 :=
    Nat.mod_eq_of_lt (by omega)
  have hscheme : ((pclk / 2) * 10 / bus + 5) / 10 = divNearest pclk bus :=
    div_round_scheme (pclk / 2) bus hb
  have hBle : (pclk / 2) * 10 / bus ≤ (pclk / 2) * 10 := Nat.div_le_self _ _
  have hC : ((pclk / 2) * 10 / bus + 5) % 2 ^ 32 =
      (pclk / 2) * 10 / bus + 5 := Nat.mod_eq_of_lt (by omega)
  have hvle : divNearest pclk bus ≤ ((pclk / 2) * 10 + 5) / 10 := by
    rw [← hscheme]
    exact Nat.div_le_div_right (by omega)
  have hvlt : divNearest pclk bus < 2 ^ 31 := by
    have h31 : ((pclk / 2) * 10 + 5) / 10 < 2 ^ 31 :=
      Nat.div_lt_of_lt_mul (by omega)
    omega
  have hFormula : uspiClkDivFormula pclk bus = divNearest pclk bus - 1 := by
    unfold uspiClkDivFormula
    rw [hA, hC, hscheme]
    have hsplit : divNearest pclk bus + (2 ^ 32 - 1) =
        (divNearest pclk bus - 1) + 2 ^ 32 := by omega
    rw [hsplit, Nat.add_mod_right]
    exact Nat.mod_eq_of_lt (by omega)
  have hfreq : pclk /
        ((uspiClkDivFormula pclk bus + 1) % 2 ^ 32 * 2 % 2 ^ 32) =
      pclk / (2 * divNearest pclk bus) := by
    rw [hFormula]
    have e1 : divNearest pclk bus - 1 + 1 = divNearest pclk bus := by omega
    rw [e1, Nat.mod_eq_of_lt (by omega), Nat.mod_eq_of_lt (by omega),
      Nat.mul_comm]
  refine ⟨hFormula, ?_, ?_, ?_⟩
  · rw [USPI_Open_snd s ms sm w bus pclk hb, hfreq]
  · simp only [USPI_SetBusClock, uspiClkDivCompute, if_neg hb]
    rw [hfreq]
    rfl
  · simp [USPI_Open]

theorem USPI_busclock_rounding_witness :
    ((1000000 : Nat) ≠ 0) ∧
    uspiClkDivFormula 48000000 1000000 = divNearest 48000000 1000000 - 1 ∧
    divNearest 48000000 1000000 = 24 ∧
    (USPI_Open ⟨0, 0, 0, 0, 0⟩ USPI_MASTER 0 8 1000000 48000000).2 =
      48000000 / (2 * divNearest 48000000 1000000) :=
  ⟨by decide, (USPI_busclock_rounding ⟨0, 0, 0, 0, 0⟩ USPI_MASTER 0 8
      1000000 48000000 (by decide) (by decide) (by decide)).1,
   by decide,
   (USPI_busclock_rounding ⟨0, 0, 0, 0, 0⟩ USPI_MASTER 0 8
      1000000 48000000 (by decide) (by decide) (by decide)).2.1⟩

/-- C8 counterexample: at peripheral clock `2^31` and requested bus
clock 1 (both nonzero), the 32-bit overflow of `(pclk / 2) * 10`
makes `USPI_Open` return 4, while the claim's divider — the nearest
rounding of `(pclk / 2) / busclock` minus 1 — gives frequency
`pclk / (2 * divNearest) = 1`. -/
theorem USPI_Open_rounding_cex :
    (USPI_Open ⟨0, 0, 0, 0, 0⟩ USPI_MASTER 0 8 1 (2 ^ 31)).2 = 4 ∧
    (2 ^ 31) / (2 * divNearest (2 ^ 31) 1) = 1 ∧
    ¬ ((USPI_Open ⟨0, 0, 0, 0, 0⟩ USPI_MASTER 0 8 1 (2 ^ 31)).2 =
        (2 ^ 31) / (2 * divNearest (2 ^ 31) 1)) := by
  decide

/-- C9: `USPI_SetBusClock` divides by the caller-supplied bus clock
with no zero guard, so at bus clock 0 the division-by-zero branch of
the divider computation is reached (`none`); `USPI_Open` guards the
same computation with a `u32BusClock != 0` test, skips it, and
returns 0. -/
theorem USPI_SetBusClock_zero_unguarded (s : UspiState)
    (ms sm w pclk : Nat) :
    USPI_SetBusClock s 0 pclk = none ∧
    uspiClkDivCompute pclk 0 = none ∧
    (USPI_Open s ms sm w 0 pclk).2 = 0 := by
  refine ⟨rfl, rfl, ?_⟩
  simp [USPI_Open]

theorem u32not_testBit (m i : Nat) :
    (u32not m).testBit i = ((m.testBit i).xor (decide (i < 32))) := by
  unfold u32not
  rw [Nat.testBit_xor, Nat.testBit_two_pow_sub_one]

theorem dwidthMsk_testBit (j : Nat) :
    USPI_LINECTL_DWIDTH_Msk.testBit j =
      (decide (8 ≤ j) && decide (j - 8 < 4)) := by
  unfold USPI_LINECTL_DWIDTH_Msk USPI_LINECTL_DWIDTH_Pos
  rw [Nat.testBit_shiftLeft, Nat.testBit_two_pow_sub_one]

theorem lsbMsk_testBit (j : Nat) :
    USPI_LINECTL_LSB_Msk.testBit j = decide (j < 1) := by
  unfold USPI_LINECTL_LSB_Msk
  rw [Nat.testBit_two_pow_sub_one]

theorem ctloinvMsk_testBit (j : Nat) :
    USPI_LINECTL_CTLOINV_Msk.testBit j = decide (7 = j) := by
  unfold USPI_LINECTL_CTLOINV_Msk
  rw [Nat.testBit_two_pow]

/-- The DWIDTH field of the LINECTL value `USPI_Open` builds holds
exactly the adjusted data width, in both modes. -/
theorem uspi_linectl_dwidth_field (a dw : Nat) (hdw : dw < 16)
    (master : Bool) :
    (((((a &&& u32not USPI_LINECTL_DWIDTH_Msk) ||| (dw <<< 8)) &&&
          u32not USPI_LINECTL_LSB_Msk) |||
        (if master then USPI_LINECTL_CTLOINV_Msk else 0)) &&&
        USPI_LINECTL_DWIDTH_Msk) >>> 8 = dw := by
  apply Nat.eq_of_testBit_eq
  intro i
  rw [Nat.testBit_shiftRight]
  cases master <;>
    simp only [if_true, if_false, Bool.false_eq_true, ite_true, ite_false,
      Nat.testBit_land, Nat.testBit_lor, u32not_testBit, dwidthMsk_testBit,
      lsbMsk_testBit, ctloinvMsk_testBit, Nat.testBit_shiftLeft,
      Nat.zero_testBit] <;>
  · by_cases h4 : i < 4
    · have e1 : 8 + i - 8 = i := by omega
      have e2 : (8 : Nat) ≤ 8 + i := by omega
      have e3 : 8 + i < 32 := by omega
      have e4 : ¬ (8 + i < 1) := by omega
      have e5 : ¬ (7 = 8 + i) := by omega
      have e6 : 8 + i - 8 < 4 := by omega
      simp [e1, e2, e3, e4, e5, e6, h4]
    · have e1 : 8 + i - 8 = i := by omega
      have e2 : (8 : Nat) ≤ 8 + i := by omega
      have e4 : ¬ (8 + i < 1) := by omega
      have e5 : ¬ (7 = 8 + i) := by omega
      have e6 : ¬ (8 + i - 8 < 4) := by omega
      have hbit : dw.testBit i = false := by
        apply Nat.testBit_eq_false_of_lt
        calc dw < 16 := hdw
          _ = 2 ^ 4 := by norm_num
          _ ≤ 2 ^ i := Nat.pow_le_pow_right (by norm_num) (by omega)
      simp [e1, e2, e4, e5, e6, h4, hbit]

/-- The LINECTL bits outside the DWIDTH, LSB and CTLOINV fields are
unchanged by `USPI_Open`, in both modes. -/
theorem uspi_linectl_preserved (a dw : Nat) (hdw : dw < 16)
    (master : Bool) :
    ((((a &&& u32not USPI_LINECTL_DWIDTH_Msk) ||| (dw <<< 8)) &&&
          u32not USPI_LINECTL_LSB_Msk) |||
        (if master then USPI_LINECTL_CTLOINV_Msk else 0)) &&&
        u32not (USPI_LINECTL_DWIDTH_Msk ||| USPI_LINECTL_LSB_Msk |||
          USPI_LINECTL_CTLOINV_Msk) =
      a &&& u32not (USPI_LINECTL_DWIDTH_Msk ||| USPI_LINECTL_LSB_Msk |||
        USPI_LINECTL_CTLOINV_Msk) := by
  apply Nat.eq_of_testBit_eq
  intro j
  cases master <;>
    simp only [if_true, if_false, Bool.false_eq_true, ite_true, ite_false,
      Nat.testBit_land, Nat.testBit_lor, u32not_testBit, dwidthMsk_testBit,
      lsbMsk_testBit, ctloinvMsk_testBit, Nat.testBit_shiftLeft,
      Nat.zero_testBit] <;>
  · by_cases h32 : j < 32
    · by_cases h8 : 8 ≤ j
      · by_cases hD : j - 8 < 4
        · simp [h32, h8, hD]
        · have e0 : ¬ (j < 1) := by omega
          have e7 : ¬ (7 = j) := by omega
          have hbit : dw.testBit (j - 8) = false := by
            apply Nat.testBit_eq_false_of_lt
            calc dw < 16 := hdw
              _ = 2 ^ 4 := by norm_num
              _ ≤ 2 ^ (j - 8) := Nat.pow_le_pow_right (by norm_num) (by omega)
          simp [h32, h8, hD, e0, e7, hbit]
      · by_cases h0 : j < 1
        · simp [h32, h8, h0]
        · by_cases h7 : 7 = j
          · simp [h32, h8, h0, h7]
          · simp [h32, h8, h0, h7]
    · have e8 : ¬ (j - 8 < 4) := by omega
      have e0 : ¬ (j < 1) := by omega
      have e7 : ¬ (7 = j) := by omega
      simp [h32, e8, e0, e7]

/-- The CTLOINV bit of the LINECTL value `USPI_Open` builds: forced
set in master mode, preserved in slave mode. -/
theorem uspi_linectl_ctloinv (a dw : Nat) (master : Bool) :
    ((((a &&& u32not USPI_LINECTL_DWIDTH_Msk) ||| (dw <<< 8)) &&&
          u32not USPI_LINECTL_LSB_Msk) |||
        (if master then USPI_LINECTL_CTLOINV_Msk else 0)) &&&
        USPI_LINECTL_CTLOINV_Msk =
      if master then USPI_LINECTL_CTLOINV_Msk
        else a &&& USPI_LINECTL_CTLOINV_Msk := by
  apply Nat.eq_of_testBit_eq
  intro j
  cases master <;>
    simp only [if_true, if_false, Bool.false_eq_true, ite_true, ite_false,
      Nat.testBit_land, Nat.testBit_lor, u32not_testBit, dwidthMsk_testBit,
      lsbMsk_testBit, ctloinvMsk_testBit, Nat.testBit_shiftLeft,
      Nat.zero_testBit] <;>
  · by_cases h7 : 7 = j
    · subst h7
      simp
    · simp [h7]

/-- C10: `USPI_Open` writes 0 into the DWIDTH field of LINECTL for a
data width of 16 or more (the hardware encoding of 16-bit transfers)
and writes the width verbatim into the field for widths below 16; the
LINECTL bits outside the DWIDTH and LSB fields and the CTLOINV bit are
preserved, and CTLOINV itself is forced set in master mode and
preserved in slave mode. -/
theorem USPI_Open_dwidth (s : UspiState) (ms sm w bus pclk : Nat) :
    ((USPI_Open s ms sm w bus pclk).1.linectl &&& USPI_LINECTL_DWIDTH_Msk)
        >>> USPI_LINECTL_DWIDTH_Pos = (if 16 ≤ w then 0 else w) ∧
    (USPI_Open s ms sm w bus pclk).1.linectl &&&
        u32not (USPI_LINECTL_DWIDTH_Msk ||| USPI_LINECTL_LSB_Msk |||
          USPI_LINECTL_CTLOINV_Msk) =
      s.linectl &&& u32not (USPI_LINECTL_DWIDTH_Msk |||
        USPI_LINECTL_LSB_Msk ||| USPI_LINECTL_CTLOINV_Msk) ∧
    (USPI_Open s ms sm w bus pclk).1.linectl &&& USPI_LINECTL_CTLOINV_Msk =
      (if ms = USPI_MASTER then USPI_LINECTL_CTLOINV_Msk
        else s.linectl &&& USPI_LINECTL_CTLOINV_Msk) := by
  have hdw : (if 16 ≤ w then 0 else w) < 16 := by split <;> omega
  have hp8 : (2 : Nat) ^ 8 = 256 := by norm_num
  have hp32 : (2 : Nat) ^ 32 = 4294967296 := by norm_num
  have hshift8 : ((if 16 ≤ w then 0 else w) <<< 8) % 2 ^ 32 =
      (if 16 ≤ w then 0 else w) <<< 8 := by
    apply Nat.mod_eq_of_lt
    rw [Nat.shiftLeft_eq]
    omega
  have hfield := uspi_linectl_dwidth_field s.linectl
    (if 16 ≤ w then 0 else w) hdw
  have hpres := uspi_linectl_preserved s.linectl
    (if 16 ≤ w then 0 else w) hdw
  have hctl := uspi_linectl_ctloinv s.linectl (if 16 ≤ w then 0 else w)
  by_cases hm : ms = USPI_MASTER
  · simp only [USPI_Open, USPI_LINECTL_DWIDTH_Pos, hshift8, hm,
      eq_self_iff_true, ite_true]
    refine ⟨?_, ?_, ?_⟩
    · simpa using hfield true
    · simpa using hpres true
    · simpa using hctl true
  · simp only [USPI_Open, USPI_LINECTL_DWIDTH_Pos, hshift8, hm,
      ite_false, if_neg hm]
    refine ⟨?_, ?_, ?_⟩
    · simpa using hfield false
    · simpa using hpres false
    · simpa using hctl false
